import Mathlib

/-!
Shallow embedding of the GigConnect server (an Express + MongoDB CRUD
backend for tasks and bids). The two route files in the repository are
near-duplicate variants; handlers that differ between them are embedded
twice, with suffix 0 for the src/index.js variant and suffix 1 for the
src/unnamed/part_000 variant. Documents are association lists of field
values, the store is a list of documents, and the server clock is an
explicit UTC-millisecond parameter.
-/

/-- Values stored in documents: a small model of the JSON/BSON values the
server manipulates. vDate none models a JavaScript Invalid Date; vOid is
a store ObjectId carried by its hex string. -/
inductive Value where
  | vNull : Value
  | vBool (b : Bool) : Value
  | vNum (n : Int) : Value
  | vStr (s : String) : Value
  | vDate (t : Option Int) : Value
  | vOid (s : String) : Value
  deriving DecidableEq, Repr

/-- A document: a finite list of key-value pairs, standing for a JSON
request body or a stored MongoDB document. -/
abbrev Doc := List (String × Value)

/-- Field lookup (first occurrence); none models an absent key. -/
def getKey : Doc → String → Option Value
  | [], _ => none
  | kv :: rest, k => if kv.1 = k then some kv.2 else getKey rest k

/-- Field assignment: replaces the key in place when present, appends it
otherwise, as JavaScript property assignment and the $set operator do. -/
def setKey : Doc → String → Value → Doc
  | [], k, v => [(k, v)]
  | kv :: rest, k, v => if kv.1 = k then (k, v) :: rest else kv :: setKey rest k v

/-- Field removal, as the JavaScript delete operator. -/
def deleteKey (d : Doc) (k : String) : Doc := d.filter (fun kv => kv.1 != k)

/-- MongoDB $set: merge every payload field into the document. -/
def applySet (d : Doc) (payload : Doc) : Doc :=
  payload.foldl (fun acc kv => setKey acc kv.1 kv.2) d

/-- JavaScript truthiness of a field value. -/
def truthy : Value → Bool
  | .vNull => false
  | .vBool b => b
  | .vNum n => n != 0
  | .vStr s => s != ""
  | .vDate _ => true
  | .vOid _ => true

/-- Truthiness of an optional field value (absent is falsy). -/
def truthyO : Option Value → Bool
  | none => false
  | some v => truthy v

/-- The required-field scan used by both create handlers:
fields absent from the document or with a falsy value. -/
def missingFields (req : List String) (d : Doc) : List String :=
  req.filter (fun f => !(truthyO (getKey d f)))

/-- Hexadecimal digit test for ObjectId strings. -/
def isHexChar (c : Char) : Bool :=
  c.isDigit || (decide ('a' ≤ c) && decide (c ≤ 'f'))
    || (decide ('A' ≤ c) && decide (c ≤ 'F'))

/-- Model of ObjectId.isValid on a string: length 12, or 24 hex digits. -/
def isValidObjectId (s : String) : Bool :=
  s.length == 12 || (s.length == 24 && s.data.all isHexChar)

def msPerDay : Int := 86400000

/-- Days between 1970-01-01 and the given civil date (the standard
days-from-civil computation, for the nonnegative years produced by the
date parser). -/
def daysFromCivil (y m d : Nat) : Int :=
  let y2 : Nat := if m ≤ 2 then y - 1 else y
  let era : Nat := y2 / 400
  let yoe : Nat := y2 - era * 400
  let mp : Nat := (m + 9) % 12
  let doy : Nat := (153 * mp + 2) / 5 + d - 1
  let doe : Nat := yoe * 365 + yoe / 4 - yoe / 100 + doy
  (era : Int) * 146097 + (doe : Int) - 719468

/-- Split a character list on a separator character (the pieces between
separators, empty pieces included). -/
def splitOnChar (c : Char) : List Char → List (List Char)
  | [] => [[]]
  | ch :: rest =>
    match splitOnChar c rest with
    | [] => if ch = c then [[], []] else [[ch]]
    | g :: gs => if ch = c then [] :: g :: gs else (ch :: g) :: gs

/-- Numeric value of a list of decimal digits. -/
def digitsToNat (l : List Char) : Nat :=
  l.foldl (fun a c => a * 10 + (c.toNat - 48)) 0

/-- Parse of a fixed-width decimal numeral. -/
def parseDigits (l : List Char) (width : Nat) : Option Nat :=
  if l.length = width ∧ l ≠ [] ∧ l.all Char.isDigit then some (digitsToNat l) else none

/-- Hour-minute clock part of a date-time string, in milliseconds. -/
def parseClock (l : List Char) : Option Int :=
  match splitOnChar ':' l with
  | [hh, mm] =>
    match parseDigits hh 2, parseDigits mm 2 with
    | some h, some mi =>
      if h < 24 ∧ mi < 60 then some ((h : Int) * 3600000 + (mi : Int) * 60000)
      else none
    | _, _ => none
  | _ => none

/-- Model of JavaScript Date-string parsing covering ISO calendar dates
with an optional hour-minute time, read as UTC; any other string is an
Invalid Date (none). -/
def parseDateString (s : String) : Option Int :=
  let parts := splitOnChar 'T' s.data
  let datePart := match parts with | [d] => d | [d, _] => d | _ => []
  let timePart : Option (List Char) := match parts with | [_, t] => some t | _ => none
  match splitOnChar '-' datePart with
  | [ys, mos, ds] =>
    match parseDigits ys 4, parseDigits mos 2, parseDigits ds 2 with
    | some y, some mo, some da =>
      if 1 ≤ mo ∧ mo ≤ 12 ∧ 1 ≤ da ∧ da ≤ 31 then
        match timePart with
        | none => some (daysFromCivil y mo da * msPerDay)
        | some t =>
          match parseClock t with
          | some clock => some (daysFromCivil y mo da * msPerDay + clock)
          | none => none
      else none
    | _, _, _ => none
  | _ => none

/-- Model of new Date(v) on a field value: undefined and non-date objects
give an Invalid Date, numbers are epoch milliseconds, null and booleans
coerce to 0 and 1, strings are parsed, a Date is copied. -/
def jsDateOf : Option Value → Option Int
  | none => none
  | some .vNull => some 0
  | some (.vBool b) => some (if b then 1 else 0)
  | some (.vNum n) => some n
  | some (.vStr s) => parseDateString s
  | some (.vDate t) => t
  | some (.vOid _) => none

/-- setHours(0,0,0,0) applied to the current time (server clock in UTC). -/
def startOfDay (now : Int) : Int := (now / msPerDay) * msPerDay

/-- Model of parseInt on an optional query-string value: leading
whitespace skipped, optional sign, then leading decimal digits; none
models NaN (absent values included). -/
def parseIntStr : Option String → Option Int
  | none => none
  | some s =>
    let t := s.data.dropWhile (fun c => c == ' ' || c == '\t' || c == '\n' || c == '\r')
    let sign : Int := if t.head? = some '-' then -1 else 1
    let rest := if t.head? = some '-' ∨ t.head? = some '+' then t.drop 1 else t
    let digits := rest.takeWhile Char.isDigit
    if digits = [] then none
    else some (sign * (digitsToNat digits : Int))

/-- The parseInt(x) OR default idiom of the pagination handler: the
default is taken when parseInt gives NaN or the falsy number 0. -/
def jsParseIntOr (dflt : Int) (s : Option String) : Int :=
  match parseIntStr s with
  | none => dflt
  | some n => if n = 0 then dflt else n

/-- Math.ceil of the real quotient of two integers (denominator nonzero),
as used for totalPages. -/
def jsCeilDiv (a b : Int) : Int := -((-a).fdiv b)

/-- Sort key giving a total order on optional field values, following the
BSON comparison order the store uses (missing and null lowest, then
numbers, strings, ObjectIds, booleans, dates). -/
def sortKey : Option Value → Lex (Nat × Lex (Int × String))
  | none => toLex (0, toLex (0, ""))
  | some .vNull => toLex (0, toLex (0, ""))
  | some (.vNum n) => toLex (1, toLex (n, ""))
  | some (.vStr s) => toLex (2, toLex (0, s))
  | some (.vOid s) => toLex (3, toLex (0, s))
  | some (.vBool b) => toLex (4, toLex (if b then 1 else 0, ""))
  | some (.vDate t) => toLex (5, toLex (t.getD 0, ""))

/-- Ascending document order on field k, as sort with k ascending. -/
def docLe (k : String) (a b : Doc) : Prop :=
  sortKey (getKey a k) ≤ sortKey (getKey b k)

/-- Descending document order on field k, as sort with k descending. -/
def docGe (k : String) (a b : Doc) : Prop := docLe k b a

instance (k : String) : DecidableRel (docLe k) :=
  fun a b => inferInstanceAs (Decidable (sortKey (getKey a k) ≤ sortKey (getKey b k)))

instance (k : String) : IsTotal Doc (docLe k) :=
  ⟨fun a b => le_total (sortKey (getKey a k)) (sortKey (getKey b k))⟩

instance (k : String) : IsTrans Doc (docLe k) :=
  ⟨fun _ _ _ h1 h2 => le_trans h1 h2⟩

instance (k : String) : DecidableRel (docGe k) :=
  fun a b => inferInstanceAs (Decidable (sortKey (getKey b k) ≤ sortKey (getKey a k)))

instance (k : String) : IsTotal Doc (docGe k) :=
  ⟨fun a b => le_total (sortKey (getKey b k)) (sortKey (getKey a k))⟩

instance (k : String) : IsTrans Doc (docGe k) :=
  ⟨fun _ _ _ h1 h2 => le_trans h2 h1⟩

/-- The query filter by _id equal to ObjectId(id). -/
def matchId (id : String) (d : Doc) : Bool := getKey d "_id" == some (.vOid id)

/-- MongoDB insertOne: appends the document, assigning oid as its _id when
the document does not carry one, and reports the inserted id. -/
def insertOne (coll : List Doc) (d : Doc) (oid : String) : String × List Doc :=
  match getKey d "_id" with
  | some (.vOid s) => (s, coll ++ [d])
  | some _ => ("", coll ++ [d])
  | none => (oid, coll ++ [setKey d "_id" (.vOid oid)])

/-! Route handlers. Each handler takes the relevant collection contents,
the request data, the server clock now (UTC milliseconds) where the code
calls new Date(), and the ObjectId the store would assign on an insert. -/

structure PostTaskResult where
  status : Nat
  message : String
  taskId : Option String
  deriving DecidableEq, Repr

/-- Required task fields of the src/index.js create handler. -/
def requiredFields0 : List String :=
  ["title", "category", "budget", "deadline", "description", "creatorEmail"]

/-- Required task fields of the part_000 create handler (creatorName added). -/
def requiredFields1 : List String :=
  ["title", "category", "budget", "deadline", "description", "creatorEmail", "creatorName"]

/-- The fixed category allow-list shared by both create handlers. -/
def allowedCategories : List String :=
  ["Web Development", "Graphic Design", "Digital Marketing",
   "Writing & Translation", "Video & Animation", "General"]

/-- allowedCategories.includes(taskData.category): only a string member of
the allow-list passes. -/
def categoryOk (d : Doc) : Bool :=
  match getKey d "category" with
  | some (.vStr s) => allowedCategories.contains s
  | _ => false

/-- typeof v === number and v > 0, the budget and bidding-amount check. -/
def isPositiveNumber : Option Value → Bool
  | some (.vNum n) => decide (0 < n)
  | _ => false

/-- POST /api/v1/tasks of src/index.js: field, budget, category and
deadline validation, createdAt stamping, insert. -/
def postTask0 (tasks : List Doc) (taskData : Doc) (now : Int) (oid : String) :
    PostTaskResult × List Doc :=
  let missing := missingFields requiredFields0 taskData
  if missing ≠ [] then
    (⟨400, "Missing required task fields: " ++ String.intercalate ", " missing ++ ".",
      none⟩, tasks)
  else if !isPositiveNumber (getKey taskData "budget") then
    (⟨400, "Budget must be a positive number.", none⟩, tasks)
  else if !categoryOk taskData then
    (⟨400, "Invalid category. Allowed categories are: " ++
      String.intercalate ", " allowedCategories ++ ".", none⟩, tasks)
  else
    match jsDateOf (getKey taskData "deadline") with
    | none => (⟨400, "Deadline must be a valid date and set to a future date.", none⟩, tasks)
    | some t =>
      if t < startOfDay now then
        (⟨400, "Deadline must be a valid date and set to a future date.", none⟩, tasks)
      else
        let ins := insertOne tasks (setKey taskData "createdAt" (.vDate (some now))) oid
        (⟨201, "Task created successfully", some ins.1⟩, ins.2)

/-- POST /api/v1/tasks of part_000: same checks with creatorName also
required. -/
def postTask1 (tasks : List Doc) (taskData : Doc) (now : Int) (oid : String) :
    PostTaskResult × List Doc :=
  let missing := missingFields requiredFields1 taskData
  if missing ≠ [] then
    (⟨400, "Missing required task fields: " ++ String.intercalate ", " missing ++ ".",
      none⟩, tasks)
  else if !isPositiveNumber (getKey taskData "budget") then
    (⟨400, "Budget must be a positive number.", none⟩, tasks)
  else if !categoryOk taskData then
    (⟨400, "Invalid category. Allowed categories are: " ++
      String.intercalate ", " allowedCategories ++ ".", none⟩, tasks)
  else
    match jsDateOf (getKey taskData "deadline") with
    | none => (⟨400, "Deadline must be a valid date and set to a future date.", none⟩, tasks)
    | some t =>
      if t < startOfDay now then
        (⟨400, "Deadline must be a valid date and set to a future date.", none⟩, tasks)
      else
        let ins := insertOne tasks (setKey taskData "createdAt" (.vDate (some now))) oid
        (⟨201, "Task created successfully", some ins.1⟩, ins.2)

structure TasksQuery where
  page : Option String
  limit : Option String
  deriving DecidableEq, Repr

structure GetTasksResult where
  status : Nat
  tasks : List Doc
  totalTasks : Nat
  totalPages : Int
  currentPage : Int
  deriving DecidableEq, Repr

/-- GET /api/v1/tasks of the paginated part_000 variant: count, sort by
ascending deadline, skip, limit, page metadata. The list model clamps a
negative skip or limit to zero; no theorem below depends on that case. -/
def getTasks (tasks : List Doc) (q : TasksQuery) : GetTasksResult :=
  let page := jsParseIntOr 1 q.page
  let lim := jsParseIntOr 10 q.limit
  let skip := (page - 1) * lim
  let sorted := List.insertionSort (docLe "deadline") tasks
  ⟨200, (sorted.drop skip.toNat).take lim.toNat, tasks.length,
    jsCeilDiv (tasks.length : Int) lim, page⟩

/-- GET /api/v1/featured-tasks: sort by soonest deadline, limit 6
(identical in both source files). -/
def getFeaturedTasks (tasks : List Doc) : List Doc :=
  (List.insertionSort (docLe "deadline") tasks).take 6

structure GetByIdResult where
  status : Nat
  message : String
  task : Option Doc
  deriving DecidableEq, Repr

/-- GET /api/v1/tasks/:id: id-format check, then findOne by _id. -/
def getTaskById (tasks : List Doc) (id : String) : GetByIdResult :=
  if !isValidObjectId id then ⟨400, "Invalid Task ID format.", none⟩
  else
    match tasks.find? (matchId id) with
    | none => ⟨404, "Task not found.", none⟩
    | some t => ⟨200, "", some t⟩

structure MyPostedResult where
  status : Nat
  message : String
  tasks : List Doc
  deriving DecidableEq, Repr

/-- List tasks by creator: 400 when the creatorEmail query value is falsy
(absent or the empty string), else the tasks with that creatorEmail
sorted by newest createdAt first. -/
def myPostedTasks (tasks : List Doc) (creatorEmail : Option String) : MyPostedResult :=
  match creatorEmail with
  | none => ⟨400, "creatorEmail query parameter is required.", []⟩
  | some e =>
    if e = "" then ⟨400, "creatorEmail query parameter is required.", []⟩
    else
      ⟨200, "", List.insertionSort (docGe "createdAt")
        (tasks.filter (fun d => getKey d "creatorEmail" == some (.vStr e)))⟩

inductive SegResponse where
  | posted (r : MyPostedResult)
  | byId (r : GetByIdResult)
  deriving DecidableEq, Repr

/-- Dispatch of GET /api/v1/tasks/ with one further path segment in the
part_000 variant: the literal my-posted-tasks route is registered before
the :id route, so Express tries it first. -/
def dispatchTasksSeg (tasks : List Doc) (seg : String) (creatorEmail : Option String) :
    SegResponse :=
  if seg = "my-posted-tasks" then .posted (myPostedTasks tasks creatorEmail)
  else .byId (getTaskById tasks seg)

structure PutResult where
  status : Nat
  message : String
  modifiedCount : Option Nat
  deriving DecidableEq, Repr

/-- updateOne on the first _id match: apply f to the first document the
predicate accepts. -/
def updateFirst (p : Doc → Bool) (f : Doc → Doc) : List Doc → List Doc
  | [] => []
  | d :: rest => if p d then f d :: rest else d :: updateFirst p f rest

/-- The effective $set payload built by the src/index.js PUT handler:
_id and creatorEmail removed, updatedAt stamped. -/
def putPayload0 (body : Doc) (now : Int) : Doc :=
  setKey (deleteKey (deleteKey body "_id") "creatorEmail") "updatedAt" (.vDate (some now))

/-- The effective $set payload built by the part_000 PUT handler: _id,
creatorEmail and creatorName removed, updatedAt stamped. -/
def putPayload1 (body : Doc) (now : Int) : Doc :=
  setKey (deleteKey (deleteKey (deleteKey body "_id") "creatorEmail") "creatorName")
    "updatedAt" (.vDate (some now))

/-- PUT /api/v1/tasks/:id of src/index.js: id and body checks, strip,
stamp, updateOne, modifiedCount reporting. -/
def putTask0 (tasks : List Doc) (id : String) (body : Doc) (now : Int) :
    PutResult × List Doc :=
  if !isValidObjectId id then (⟨400, "Invalid Task ID format.", none⟩, tasks)
  else if body = [] then
    (⟨400, "Request body is empty. No update data provided.", none⟩, tasks)
  else
    let payload := putPayload0 body now
    match tasks.find? (matchId id) with
    | none => (⟨404, "Task not found.", none⟩, tasks)
    | some old =>
      let tasks2 := updateFirst (matchId id) (fun d => applySet d payload) tasks
      if applySet old payload = old then
        (⟨200, "Task found but no changes were applied (data might be the same).",
          some 0⟩, tasks2)
      else (⟨200, "Task updated successfully", some 1⟩, tasks2)

/-- PUT /api/v1/tasks/:id of part_000: as putTask0 but the payload also
has creatorName stripped. -/
def putTask1 (tasks : List Doc) (id : String) (body : Doc) (now : Int) :
    PutResult × List Doc :=
  if !isValidObjectId id then (⟨400, "Invalid Task ID format.", none⟩, tasks)
  else if body = [] then
    (⟨400, "Request body is empty. No update data provided.", none⟩, tasks)
  else
    let payload := putPayload1 body now
    match tasks.find? (matchId id) with
    | none => (⟨404, "Task not found.", none⟩, tasks)
    | some old =>
      let tasks2 := updateFirst (matchId id) (fun d => applySet d payload) tasks
      if applySet old payload = old then
        (⟨200, "Task found but no changes were applied (data might be the same).",
          some 0⟩, tasks2)
      else (⟨200, "Task updated successfully", some 1⟩, tasks2)

structure PostBidResult where
  status : Nat
  message : String
  bidId : Option String
  deriving DecidableEq, Repr

def requiredBidFields : List String := ["biddingAmount", "bidderEmail"]

/-- JavaScript now > new Date(d): always false when d is an Invalid Date,
since every comparison against NaN is false. -/
def jsAfter (now : Int) : Option Int → Bool
  | none => false
  | some t => decide (t < now)

/-- POST /api/v1/tasks/:taskId/bids: existence, self-bid and deadline
guards, then field validation and the insert (identical in both source
files). Returns the response and the new bids collection. -/
def postBid (tasks bids : List Doc) (taskId : String) (bidData : Doc) (now : Int)
    (oid : String) : PostBidResult × List Doc :=
  if !isValidObjectId taskId then (⟨400, "Invalid Task ID format.", none⟩, bids)
  else
    match tasks.find? (matchId taskId) with
    | none => (⟨404, "Task not found. Cannot place bid.", none⟩, bids)
    | some task =>
      if getKey task "creatorEmail" = getKey bidData "bidderEmail" then
        (⟨403, "You cannot bid on your own task.", none⟩, bids)
      else if jsAfter now (jsDateOf (getKey task "deadline")) then
        (⟨403, "The deadline for bidding on this task has passed.", none⟩, bids)
      else
        let missing := missingFields requiredBidFields bidData
        if missing ≠ [] then
          (⟨400, "Missing required bid fields: " ++ String.intercalate ", " missing ++ ".",
            none⟩, bids)
        else if !isPositiveNumber (getKey bidData "biddingAmount") then
          (⟨400, "Bidding amount must be a positive number.", none⟩, bids)
        else if truthyO (getKey bidData "bidderDeadline")
            && (jsDateOf (getKey bidData "bidderDeadline")).isNone then
          (⟨400, "Bidder deadline must be a valid date format if provided.", none⟩, bids)
        else
          let amount : Value :=
            match getKey bidData "biddingAmount" with
            | some (.vNum n) => .vNum n
            | _ => .vNull
          let newBid : Doc :=
            [("taskId", .vOid taskId),
             ("bidderEmail", (getKey bidData "bidderEmail").getD .vNull),
             ("biddingAmount", amount),
             ("bidderDeadline", (getKey bidData "bidderDeadline").getD .vNull),
             ("comment", (getKey bidData "comment").getD .vNull),
             ("status", .vStr "pending"),
             ("bidPlacedAt", .vDate (some now))]
          let ins := insertOne bids newBid oid
          (⟨201, "Bid placed successfully", some ins.1⟩, ins.2)

/-! Lemmas about document field manipulation. -/

theorem getKey_setKey_self (d : Doc) (k : String) (v : Value) :
    getKey (setKey d k v) k = some v := by
  induction d with
  | nil => simp [setKey, getKey]
  | cons kv rest ih =>
    by_cases h : kv.1 = k
    · simp [setKey, h, getKey]
    · simp [setKey, h, getKey, ih]

theorem getKey_setKey_ne (d : Doc) (k k2 : String) (v : Value) (h : k ≠ k2) :
    getKey (setKey d k v) k2 = getKey d k2 := by
  induction d with
  | nil => simp [setKey, getKey, h]
  | cons kv rest ih =>
    by_cases h2 : kv.1 = k
    · simp [setKey, getKey, h2, h]
    · simp [setKey, getKey, h2, ih]

theorem mem_setKey (d : Doc) (k : String) (v : Value) (kv : String × Value)
    (h : kv ∈ setKey d k v) : kv = (k, v) ∨ kv ∈ d := by
  induction d with
  | nil => simpa [setKey] using h
  | cons kv2 rest ih =>
    by_cases h2 : kv2.1 = k
    · simp only [setKey, h2, if_pos] at h
      rcases List.mem_cons.mp h with h | h
      · exact Or.inl h
      · exact Or.inr (List.mem_cons_of_mem _ h)
    · simp only [setKey, h2, if_neg, ite_false] at h
      rcases List.mem_cons.mp h with h | h
      · exact Or.inr (by simp [h])
      · rcases ih h with h3 | h3
        · exact Or.inl h3
        · exact Or.inr (List.mem_cons_of_mem _ h3)

theorem mem_deleteKey (d : Doc) (k : String) (kv : String × Value)
    (h : kv ∈ deleteKey d k) : kv ∈ d ∧ kv.1 ≠ k := by
  simp only [deleteKey, List.mem_filter, bne_iff_ne, ne_eq] at h
  exact ⟨h.1, h.2⟩

theorem getKey_applySet_notmem (payload : Doc) (k : String)
    (h : ∀ kv ∈ payload, kv.1 ≠ k) (d : Doc) :
    getKey (applySet d payload) k = getKey d k := by
  induction payload generalizing d with
  | nil => rfl
  | cons kv rest ih =>
    have h1 : kv.1 ≠ k := h kv (List.mem_cons_self _ _)
    have h2 : ∀ kv2 ∈ rest, kv2.1 ≠ k := fun kv2 hm => h kv2 (List.mem_cons_of_mem _ hm)
    show getKey (applySet (setKey d kv.1 kv.2) rest) k = getKey d k
    rw [ih h2, getKey_setKey_ne _ _ _ _ h1]

theorem putPayload0_no_creatorEmail (body : Doc) (now : Int) :
    ∀ kv ∈ putPayload0 body now, kv.1 ≠ "creatorEmail" := by
  intro kv h
  rcases mem_setKey _ _ _ _ h with h1 | h1
  · simp [h1]
  · exact (mem_deleteKey _ _ _ h1).2

theorem putPayload1_no_creatorEmail (body : Doc) (now : Int) :
    ∀ kv ∈ putPayload1 body now, kv.1 ≠ "creatorEmail" := by
  intro kv h
  rcases mem_setKey _ _ _ _ h with h1 | h1
  · simp [h1]
  · exact (mem_deleteKey _ _ _ (mem_deleteKey _ _ _ h1).1).2

theorem putPayload1_no_creatorName (body : Doc) (now : Int) :
    ∀ kv ∈ putPayload1 body now, kv.1 ≠ "creatorName" := by
  intro kv h
  rcases mem_setKey _ _ _ _ h with h1 | h1
  · simp [h1]
  · exact (mem_deleteKey _ _ _ h1).2

theorem map_getKey_updateFirst (p : Doc → Bool) (f : Doc → Doc) (k : String)
    (hf : ∀ d, getKey (f d) k = getKey d k) (l : List Doc) :
    (updateFirst p f l).map (fun d => getKey d k) = l.map (fun d => getKey d k) := by
  induction l with
  | nil => rfl
  | cons d rest ih =>
    by_cases h : p d
    · simp [updateFirst, h, hf]
    · simp [updateFirst, h, ih]

theorem putTask0_map_getKey (tasks : List Doc) (id : String) (body : Doc) (now : Int)
    (k : String) (hk : ∀ kv ∈ putPayload0 body now, kv.1 ≠ k) :
    (putTask0 tasks id body now).2.map (fun d => getKey d k)
      = tasks.map (fun d => getKey d k) := by
  unfold putTask0
  split
  · rfl
  · split
    · rfl
    · split
      · rfl
      · dsimp only
        split <;>
          exact map_getKey_updateFirst _ _ _
            (fun d => getKey_applySet_notmem _ _ hk d) tasks

theorem putTask1_map_getKey (tasks : List Doc) (id : String) (body : Doc) (now : Int)
    (k : String) (hk : ∀ kv ∈ putPayload1 body now, kv.1 ≠ k) :
    (putTask1 tasks id body now).2.map (fun d => getKey d k)
      = tasks.map (fun d => getKey d k) := by
  unfold putTask1
  split
  · rfl
  · split
    · rfl
    · split
      · rfl
      · dsimp only
        split <;>
          exact map_getKey_updateFirst _ _ _
            (fun d => getKey_applySet_notmem _ _ hk d) tasks

/-- C1 (amended): both PUT variants strip creatorEmail from the update
payload, so no stored creatorEmail ever changes; the part_000 variant
also strips creatorName, so there no stored creatorName ever changes;
the src/index.js variant does not strip creatorName. -/
theorem update_preserves_creator_fields (tasks : List Doc) (id : String)
    (body : Doc) (now : Int) :
    ((putTask0 tasks id body now).2.map (fun d => getKey d "creatorEmail")
        = tasks.map (fun d => getKey d "creatorEmail"))
    ∧ ((putTask1 tasks id body now).2.map (fun d => getKey d "creatorEmail")
        = tasks.map (fun d => getKey d "creatorEmail"))
    ∧ ((putTask1 tasks id body now).2.map (fun d => getKey d "creatorName")
        = tasks.map (fun d => getKey d "creatorName")) :=
  ⟨putTask0_map_getKey _ _ _ _ _ (putPayload0_no_creatorEmail body now),
   putTask1_map_getKey _ _ _ _ _ (putPayload1_no_creatorEmail body now),
   putTask1_map_getKey _ _ _ _ _ (putPayload1_no_creatorName body now)⟩

/-- C1 counterexample: the src/index.js PUT handler does not strip
creatorName, so an update payload supplying creatorName changes the
stored creatorName, refuting the claim as stated. -/
theorem update_changes_creatorName_index_variant :
    ¬ ((putTask0
        [[("_id", Value.vOid "0123456789abcdef01234567"),
          ("creatorEmail", Value.vStr "alice@x.com"),
          ("creatorName", Value.vStr "Alice")]]
        "0123456789abcdef01234567"
        [("creatorName", Value.vStr "Mallory")] 0).2.map
          (fun d => getKey d "creatorName")
      = [[("_id", Value.vOid "0123456789abcdef01234567"),
          ("creatorEmail", Value.vStr "alice@x.com"),
          ("creatorName", Value.vStr "Alice")]].map
          (fun d => getKey d "creatorName")) := by
  decide

/-- C2: for a well-formed id and a non-empty body whose id matches a
stored task, both PUT variants answer 200, with modifiedCount 0 exactly
when the $set merge leaves the matched document unchanged, and 1
otherwise. -/
theorem update_modifiedCount_spec (tasks : List Doc) (id : String) (body : Doc)
    (now : Int) (old : Doc)
    (hid : isValidObjectId id = true)
    (hbody : body ≠ [])
    (hfind : tasks.find? (matchId id) = some old) :
    ((putTask0 tasks id body now).1.status = 200
      ∧ (putTask0 tasks id body now).1.modifiedCount
          = some (if applySet old (putPayload0 body now) = old then 0 else 1))
    ∧ ((putTask1 tasks id body now).1.status = 200
      ∧ (putTask1 tasks id body now).1.modifiedCount
          = some (if applySet old (putPayload1 body now) = old then 0 else 1)) := by
  constructor <;>
  · simp only [putTask0, putTask1, hid, hfind, hbody, Bool.not_true,
      Bool.false_eq_true, if_false, ne_eq, not_false_iff, ite_true, if_true,
      ite_false, ite_not]
    split <;> simp_all

/-! Concrete data reused by witnesses. -/

def oidA : String := "0123456789abcdef01234567"

def taskA : Doc := [("_id", Value.vOid oidA), ("title", Value.vStr "Old")]

def bodyA : Doc := [("title", Value.vStr "New")]

/-- C2 witness: a concrete one-task store and an update that changes the
title field. -/
theorem update_modifiedCount_spec_witness :
    (isValidObjectId oidA = true ∧ bodyA ≠ []
      ∧ [taskA].find? (matchId oidA) = some taskA)
    ∧ (((putTask0 [taskA] oidA bodyA 5).1.status = 200
        ∧ (putTask0 [taskA] oidA bodyA 5).1.modifiedCount
            = some (if applySet taskA (putPayload0 bodyA 5) = taskA then 0 else 1))
      ∧ ((putTask1 [taskA] oidA bodyA 5).1.status = 200
        ∧ (putTask1 [taskA] oidA bodyA 5).1.modifiedCount
            = some (if applySet taskA (putPayload1 bodyA 5) = taskA then 0 else 1))) :=
  ⟨⟨by decide, by decide, by decide⟩,
   update_modifiedCount_spec [taskA] oidA bodyA 5 taskA (by decide) (by decide) (by decide)⟩

/-- C3: a bid whose bidderEmail equals the target task's creatorEmail is
rejected with 403 and the self-bid message, the bids collection is left
unchanged, and nothing else about the payload matters. -/
theorem self_bid_rejected (tasks bids : List Doc) (taskId : String) (bidData : Doc)
    (now : Int) (oid : String) (task : Doc)
    (hid : isValidObjectId taskId = true)
    (hfind : tasks.find? (matchId taskId) = some task)
    (hself : getKey task "creatorEmail" = getKey bidData "bidderEmail") :
    postBid tasks bids taskId bidData now oid
      = (⟨403, "You cannot bid on your own task.", none⟩, bids) := by
  simp [postBid, hid, hfind, hself]

def taskB : Doc :=
  [("_id", Value.vOid oidA), ("creatorEmail", Value.vStr "a@x.com"),
   ("deadline", Value.vStr "2020-01-01")]

def bidSelf : Doc := [("bidderEmail", Value.vStr "a@x.com"), ("biddingAmount", Value.vNum 30)]

/-- C3 witness: bidding on taskB with the creator's own email. -/
theorem self_bid_rejected_witness :
    (isValidObjectId oidA = true
      ∧ [taskB].find? (matchId oidA) = some taskB
      ∧ getKey taskB "creatorEmail" = getKey bidSelf "bidderEmail")
    ∧ postBid [taskB] [] oidA bidSelf 0 oidA
        = (⟨403, "You cannot bid on your own task.", none⟩, []) :=
  ⟨⟨by decide, by decide, by decide⟩,
   self_bid_rejected [taskB] [] oidA bidSelf 0 oidA taskB (by decide) (by decide) (by decide)⟩

/-- C4: a bid on another user's task whose stored deadline parses to a
time before the current time is rejected with 403 and the
deadline-passed message, and the bids collection is left unchanged. -/
theorem late_bid_rejected (tasks bids : List Doc) (taskId : String) (bidData : Doc)
    (now : Int) (oid : String) (task : Doc) (t : Int)
    (hid : isValidObjectId taskId = true)
    (hfind : tasks.find? (matchId taskId) = some task)
    (hdiff : getKey task "creatorEmail" ≠ getKey bidData "bidderEmail")
    (hdl : jsDateOf (getKey task "deadline") = some t)
    (hlate : t < now) :
    postBid tasks bids taskId bidData now oid
      = (⟨403, "The deadline for bidding on this task has passed.", none⟩, bids) := by
  simp [postBid, hid, hfind, hdiff, hdl, jsAfter, hlate]

def bidOther : Doc := [("bidderEmail", Value.vStr "b@x.com"), ("biddingAmount", Value.vNum 30)]

/-- C4 witness: taskB's deadline 2020-01-01 has passed at the concrete
later time. -/
theorem late_bid_rejected_witness :
    (isValidObjectId oidA = true
      ∧ [taskB].find? (matchId oidA) = some taskB
      ∧ getKey taskB "creatorEmail" ≠ getKey bidOther "bidderEmail"
      ∧ jsDateOf (getKey taskB "deadline") = some 1577836800000
      ∧ (1577836800000 : Int) < 1600000000000)
    ∧ postBid [taskB] [] oidA bidOther 1600000000000 oidA
        = (⟨403, "The deadline for bidding on this task has passed.", none⟩, []) :=
  ⟨⟨by decide, by decide, by decide, by decide, by decide⟩,
   late_bid_rejected [taskB] [] oidA bidOther 1600000000000 oidA taskB 1577836800000
     (by decide) (by decide) (by decide) (by decide) (by decide)⟩

/-- C10: when the stored deadline does not parse to a valid date, the
deadline guard is false at every current time, so an otherwise-valid bid
on another user's task is accepted (201) and inserted no matter how late
it is. -/
theorem invalid_deadline_bid_accepted (tasks bids : List Doc) (taskId : String)
    (bidData : Doc) (now : Int) (oid : String) (task : Doc)
    (hid : isValidObjectId taskId = true)
    (hfind : tasks.find? (matchId taskId) = some task)
    (hdiff : getKey task "creatorEmail" ≠ getKey bidData "bidderEmail")
    (hnone : jsDateOf (getKey task "deadline") = none)
    (hmiss : missingFields requiredBidFields bidData = [])
    (hamt : isPositiveNumber (getKey bidData "biddingAmount") = true)
    (hbdl : truthyO (getKey bidData "bidderDeadline") = false
        ∨ (jsDateOf (getKey bidData "bidderDeadline")).isNone = false) :
    jsAfter now (jsDateOf (getKey task "deadline")) = false
    ∧ (postBid tasks bids taskId bidData now oid).1.status = 201
    ∧ (postBid tasks bids taskId bidData now oid).1.message = "Bid placed successfully"
    ∧ (postBid tasks bids taskId bidData now oid).2.length = bids.length + 1 := by
  have hb : (truthyO (getKey bidData "bidderDeadline")
      && (jsDateOf (getKey bidData "bidderDeadline")).isNone) = false := by
    rcases hbdl with h | h <;> simp [h]
  have hafter : jsAfter now (jsDateOf (getKey task "deadline")) = false := by
    rw [hnone]
    rfl
  refine ⟨hafter, ?_, ?_, ?_⟩ <;>
    simp [postBid, hid, hfind, hdiff, hafter, hmiss, hamt, hb, insertOne, getKey]

def taskBadDeadline : Doc :=
  [("_id", Value.vOid oidA), ("creatorEmail", Value.vStr "a@x.com"),
   ("deadline", Value.vStr "soon")]

/-- C10 witness: a task whose stored deadline is the unparseable string
"soon" accepts a valid bid at a very late time. -/
theorem invalid_deadline_bid_accepted_witness :
    (isValidObjectId oidA = true
      ∧ [taskBadDeadline].find? (matchId oidA) = some taskBadDeadline
      ∧ getKey taskBadDeadline "creatorEmail" ≠ getKey bidOther "bidderEmail"
      ∧ jsDateOf (getKey taskBadDeadline "deadline") = none
      ∧ missingFields requiredBidFields bidOther = []
      ∧ isPositiveNumber (getKey bidOther "biddingAmount") = true
      ∧ truthyO (getKey bidOther "bidderDeadline") = false)
    ∧ (jsAfter 99999999999999 (jsDateOf (getKey taskBadDeadline "deadline")) = false
      ∧ (postBid [taskBadDeadline] [] oidA bidOther 99999999999999 oidA).1.status = 201
      ∧ (postBid [taskBadDeadline] [] oidA bidOther 99999999999999 oidA).1.message
          = "Bid placed successfully"
      ∧ (postBid [taskBadDeadline] [] oidA bidOther 99999999999999 oidA).2.length
          = List.length ([] : List Doc) + 1) :=
  ⟨⟨by decide, by decide, by decide, by decide, by decide, by decide, by decide⟩,
   invalid_deadline_bid_accepted [taskBadDeadline] [] oidA bidOther 99999999999999 oidA
     taskBadDeadline (by decide) (by decide) (by decide) (by decide) (by decide)
     (by decide) (Or.inl (by decide))⟩

/-- Day index (UTC) of an epoch-millisecond timestamp. -/
def dayOf (t : Int) : Int := t / msPerDay

/-- The deadline guard t < startOfDay now compares calendar days only: it
holds exactly when the deadline's day precedes the current day, whatever
the time of day inside either day. -/
theorem lt_startOfDay_iff (t now : Int) :
    t < startOfDay now ↔ dayOf t < dayOf now := by
  have hpos : (0 : Int) < msPerDay := by norm_num [msPerDay]
  unfold startOfDay dayOf
  exact (Int.ediv_lt_iff_lt_mul hpos).symm

theorem postTask0_reject_deadline (tasks : List Doc) (taskData : Doc) (now : Int)
    (oid : String) (h0 : missingFields requiredFields0 taskData = [])
    (t : Int) (hdl : jsDateOf (getKey taskData "deadline") = some t)
    (hday : t < startOfDay now) :
    (postTask0 tasks taskData now oid).1.status = 400 := by
  cases hb : isPositiveNumber (getKey taskData "budget") <;>
    cases hc : categoryOk taskData <;>
      simp [postTask0, h0, hb, hc, hdl, hday]

theorem postTask1_reject_deadline (tasks : List Doc) (taskData : Doc) (now : Int)
    (oid : String) (h1 : missingFields requiredFields1 taskData = [])
    (t : Int) (hdl : jsDateOf (getKey taskData "deadline") = some t)
    (hday : t < startOfDay now) :
    (postTask1 tasks taskData now oid).1.status = 400 := by
  cases hb : isPositiveNumber (getKey taskData "budget") <;>
    cases hc : categoryOk taskData <;>
      simp [postTask1, h1, hb, hc, hdl, hday]

/-- C5: with every required field present and truthy (for the respective
variant), task creation answers 400 when the budget is not a positive
number, when the category is outside the six-value allow-list, or when
the deadline does not parse; when budget and category pass and the
deadline parses, 400 is answered exactly when the deadline's calendar
day precedes the current day (time of day is ignored), and in particular
a deadline on the previous day is rejected. Both variants are covered. -/
theorem create_validation_spec (tasks : List Doc) (taskData : Doc) (now : Int)
    (oid : String)
    (h0 : missingFields requiredFields0 taskData = [])
    (h1 : missingFields requiredFields1 taskData = []) :
    allowedCategories.length = 6
    ∧ (isPositiveNumber (getKey taskData "budget") = false →
        (postTask0 tasks taskData now oid).1.status = 400
        ∧ (postTask1 tasks taskData now oid).1.status = 400)
    ∧ (categoryOk taskData = false →
        (postTask0 tasks taskData now oid).1.status = 400
        ∧ (postTask1 tasks taskData now oid).1.status = 400)
    ∧ (jsDateOf (getKey taskData "deadline") = none →
        (postTask0 tasks taskData now oid).1.status = 400
        ∧ (postTask1 tasks taskData now oid).1.status = 400)
    ∧ (∀ t, jsDateOf (getKey taskData "deadline") = some t →
        isPositiveNumber (getKey taskData "budget") = true →
        categoryOk taskData = true →
        (((postTask0 tasks taskData now oid).1.status = 400 ↔ dayOf t < dayOf now)
          ∧ ((postTask1 tasks taskData now oid).1.status = 400 ↔ dayOf t < dayOf now)))
    ∧ (∀ t, jsDateOf (getKey taskData "deadline") = some t →
        dayOf t = dayOf now - 1 →
        (postTask0 tasks taskData now oid).1.status = 400
        ∧ (postTask1 tasks taskData now oid).1.status = 400) := by
  refine ⟨rfl, ?_, ?_, ?_, ?_, ?_⟩
  · intro hb
    constructor <;> simp [postTask0, postTask1, h0, h1, hb]
  · intro hc
    cases hb : isPositiveNumber (getKey taskData "budget") <;>
      constructor <;> simp [postTask0, postTask1, h0, h1, hb, hc]
  · intro hd
    cases hb : isPositiveNumber (getKey taskData "budget") <;>
      cases hc : categoryOk taskData <;>
        constructor <;> simp [postTask0, postTask1, h0, h1, hb, hc, hd]
  · intro t hdl hb hc
    by_cases hlt : t < startOfDay now
    · have hd : dayOf t < dayOf now := (lt_startOfDay_iff t now).mp hlt
      constructor <;> simp [postTask0, postTask1, h0, h1, hb, hc, hdl, hlt, hd]
    · have hd : ¬ dayOf t < dayOf now := fun h => hlt ((lt_startOfDay_iff t now).mpr h)
      constructor <;> simp [postTask0, postTask1, h0, h1, hb, hc, hdl, hlt, hd]
  · intro t hdl hday
    have hlt : t < startOfDay now := (lt_startOfDay_iff t now).mpr (by omega)
    exact ⟨postTask0_reject_deadline tasks taskData now oid h0 t hdl hlt,
           postTask1_reject_deadline tasks taskData now oid h1 t hdl hlt⟩

def taskC : Doc :=
  [("title", Value.vStr "Logo design"), ("category", Value.vStr "Graphic Design"),
   ("budget", Value.vNum 50), ("deadline", Value.vStr "2020-01-02"),
   ("description", Value.vStr "d"), ("creatorEmail", Value.vStr "a@x.com"),
   ("creatorName", Value.vStr "A")]

def nowC : Int := 1578009600000

/-- C5 witness: the validation theorem at a concrete well-formed task
payload, with the server clock at 2020-01-03. -/
theorem create_validation_spec_witness :
    (missingFields requiredFields0 taskC = [] ∧ missingFields requiredFields1 taskC = [])
    ∧ (allowedCategories.length = 6
      ∧ (isPositiveNumber (getKey taskC "budget") = false →
          (postTask0 [] taskC nowC oidA).1.status = 400
          ∧ (postTask1 [] taskC nowC oidA).1.status = 400)
      ∧ (categoryOk taskC = false →
          (postTask0 [] taskC nowC oidA).1.status = 400
          ∧ (postTask1 [] taskC nowC oidA).1.status = 400)
      ∧ (jsDateOf (getKey taskC "deadline") = none →
          (postTask0 [] taskC nowC oidA).1.status = 400
          ∧ (postTask1 [] taskC nowC oidA).1.status = 400)
      ∧ (∀ t, jsDateOf (getKey taskC "deadline") = some t →
          isPositiveNumber (getKey taskC "budget") = true →
          categoryOk taskC = true →
          (((postTask0 [] taskC nowC oidA).1.status = 400 ↔ dayOf t < dayOf nowC)
            ∧ ((postTask1 [] taskC nowC oidA).1.status = 400 ↔ dayOf t < dayOf nowC)))
      ∧ (∀ t, jsDateOf (getKey taskC "deadline") = some t →
          dayOf t = dayOf nowC - 1 →
          (postTask0 [] taskC nowC oidA).1.status = 400
          ∧ (postTask1 [] taskC nowC oidA).1.status = 400)) :=
  ⟨⟨by decide, by decide⟩,
   create_validation_spec [] taskC nowC oidA (by decide) (by decide)⟩

/-- C8: creating a valid task (src/index.js variant) and immediately
fetching the returned id yields 201 with the new id, then 200 with a
document equal to the input plus the server-assigned _id and createdAt
and nothing else changed. -/
theorem create_then_get_roundtrip (tasks : List Doc) (taskData : Doc) (now : Int)
    (oid : String)
    (hmiss : missingFields requiredFields0 taskData = [])
    (hbud : isPositiveNumber (getKey taskData "budget") = true)
    (hcat : categoryOk taskData = true)
    (t : Int) (hdl : jsDateOf (getKey taskData "deadline") = some t)
    (hday : ¬ t < startOfDay now)
    (hnoid : getKey taskData "_id" = none)
    (hvalid : isValidObjectId oid = true)
    (hfresh : ∀ d ∈ tasks, matchId oid d = false) :
    (postTask0 tasks taskData now oid).1
        = ⟨201, "Task created successfully", some oid⟩
    ∧ getTaskById (postTask0 tasks taskData now oid).2 oid
        = ⟨200, "",
            some (setKey (setKey taskData "createdAt" (.vDate (some now))) "_id" (.vOid oid))⟩
    ∧ getKey (setKey (setKey taskData "createdAt" (.vDate (some now))) "_id" (.vOid oid)) "_id"
        = some (.vOid oid)
    ∧ getKey (setKey (setKey taskData "createdAt" (.vDate (some now))) "_id" (.vOid oid))
        "createdAt" = some (.vDate (some now))
    ∧ (∀ k, k ≠ "_id" → k ≠ "createdAt" →
        getKey (setKey (setKey taskData "createdAt" (.vDate (some now))) "_id" (.vOid oid)) k
          = getKey taskData k) := by
  have hid2 : getKey (setKey taskData "createdAt" (Value.vDate (some now))) "_id" = none := by
    rw [getKey_setKey_ne _ _ _ _ (by decide), hnoid]
  have hpost : postTask0 tasks taskData now oid
      = (⟨201, "Task created successfully", some oid⟩,
         tasks ++ [setKey (setKey taskData "createdAt" (Value.vDate (some now)))
           "_id" (Value.vOid oid)]) := by
    simp [postTask0, hmiss, hbud, hcat, hdl, hday, insertOne, hid2]
  have hmatch : matchId oid (setKey (setKey taskData "createdAt" (Value.vDate (some now)))
      "_id" (Value.vOid oid)) = true := by
    simp [matchId, getKey_setKey_self]
  have hnone : tasks.find? (matchId oid) = none :=
    List.find?_eq_none.mpr (fun x hx => by simp [hfresh x hx])
  have hfind : (postTask0 tasks taskData now oid).2.find? (matchId oid)
      = some (setKey (setKey taskData "createdAt" (Value.vDate (some now)))
          "_id" (Value.vOid oid)) := by
    rw [hpost]
    rw [List.find?_append, hnone, List.find?_cons_of_pos _ hmatch]
    rfl
  refine ⟨by rw [hpost], ?_, getKey_setKey_self _ _ _, ?_, ?_⟩
  · simp [getTaskById, hvalid, hfind]
  · rw [getKey_setKey_ne _ _ _ _ (by decide)]
    exact getKey_setKey_self _ _ _
  · intro k hk1 hk2
    rw [getKey_setKey_ne _ _ _ _ (Ne.symm hk1), getKey_setKey_ne _ _ _ _ (Ne.symm hk2)]

def taskD : Doc :=
  [("title", Value.vStr "Logo design"), ("category", Value.vStr "Graphic Design"),
   ("budget", Value.vNum 50), ("deadline", Value.vStr "2030-01-01"),
   ("description", Value.vStr "d"), ("creatorEmail", Value.vStr "a@x.com")]

/-- C8 witness: the round trip on an empty store at time 0 with a
concrete valid payload. -/
theorem create_then_get_roundtrip_witness :
    (missingFields requiredFields0 taskD = []
      ∧ isPositiveNumber (getKey taskD "budget") = true
      ∧ categoryOk taskD = true
      ∧ jsDateOf (getKey taskD "deadline") = some 1893456000000
      ∧ ¬ (1893456000000 : Int) < startOfDay 0
      ∧ getKey taskD "_id" = none
      ∧ isValidObjectId oidA = true)
    ∧ ((postTask0 [] taskD 0 oidA).1 = ⟨201, "Task created successfully", some oidA⟩
      ∧ getTaskById (postTask0 [] taskD 0 oidA).2 oidA
          = ⟨200, "",
              some (setKey (setKey taskD "createdAt" (.vDate (some 0))) "_id" (.vOid oidA))⟩
      ∧ getKey (setKey (setKey taskD "createdAt" (.vDate (some 0))) "_id" (.vOid oidA)) "_id"
          = some (.vOid oidA)
      ∧ getKey (setKey (setKey taskD "createdAt" (.vDate (some 0))) "_id" (.vOid oidA))
          "createdAt" = some (.vDate (some 0))
      ∧ (∀ k, k ≠ "_id" → k ≠ "createdAt" →
          getKey (setKey (setKey taskD "createdAt" (.vDate (some 0))) "_id" (.vOid oidA)) k
            = getKey taskD k)) :=
  ⟨⟨by decide, by decide, by decide, by decide, by decide, by decide, by decide⟩,
   create_then_get_roundtrip [] taskD 0 oidA (by decide) (by decide) (by decide)
     1893456000000 (by decide) (by decide) (by decide) (by decide)
     (fun d hd => absurd hd (List.not_mem_nil d))⟩

/-- C9: the featured listing returns at most 6 tasks and is sorted by
non-decreasing deadline. -/
theorem featured_spec (tasks : List Doc) :
    (getFeaturedTasks tasks).length ≤ 6
    ∧ List.Sorted (docLe "deadline") (getFeaturedTasks tasks) := by
  constructor
  · show (List.take 6 _).length ≤ 6
    rw [List.length_take]
    exact min_le_left _ _
  · exact List.Pairwise.sublist (List.take_sublist _ _)
      (List.sorted_insertionSort (docLe "deadline") tasks)

/-- For a nonnegative numerator and positive denominator, the handler's
Math.ceil expression agrees with the usual integer ceiling formula. -/
theorem jsCeilDiv_eq_add_div (a b : Int) (ha : 0 ≤ a) (hb : 1 ≤ b) :
    jsCeilDiv a b = (a + b - 1) / b := by
  have hb0 : b ≠ 0 := by omega
  have hbpos : (0 : Int) < b := by omega
  have hr0 : 0 ≤ a % b := Int.emod_nonneg a hb0
  have hrb : a % b < b := Int.emod_lt_of_pos a hbpos
  have hdiv : b * (a / b) + a % b = a := Int.ediv_add_emod a b
  set q := a / b with hq
  set r := a % b with hrdef
  unfold jsCeilDiv
  rw [Int.fdiv_eq_ediv _ (le_of_lt hbpos)]
  by_cases hr : r = 0
  · have e1 : -a = b * (-q) := by rw [← hdiv, hr]; ring
    have e2 : a + b - 1 = (b - 1) + b * q := by rw [← hdiv, hr]; ring
    rw [e1, Int.mul_ediv_cancel_left _ hb0, e2, Int.add_mul_ediv_left _ _ hb0,
        Int.ediv_eq_zero_of_lt (by omega) (by omega)]
    omega
  · have e1 : -a = (b - r) + b * (-q - 1) := by rw [← hdiv]; ring
    have e2 : a + b - 1 = (r - 1) + b * (q + 1) := by rw [← hdiv]; ring
    rw [e1, Int.add_mul_ediv_left _ _ hb0, Int.ediv_eq_zero_of_lt (by omega) (by omega),
        e2, Int.add_mul_ediv_left _ _ hb0, Int.ediv_eq_zero_of_lt (by omega) (by omega)]
    omega

/-- C6 counterexample: a request with query limit "-1" has effective
limit -1, and the claimed bound (returned count at most the limit) fails
on a one-task store. -/
theorem pagination_negative_limit_counterexample :
    ¬ (((getTasks [[("title", Value.vStr "a")]]
          ⟨none, some "-1"⟩).tasks.length : Int)
        ≤ jsParseIntOr 10 (some "-1")) := by decide

/-- C6 (amended): page and limit default to 1 and 10 when absent or
unparseable; and whenever the effective page and limit are at least 1
(always the case for absent, unparseable or positive parameters), the
returned page holds at most limit tasks and totalPages is the ceiling of
totalTasks over the limit. -/
theorem pagination_spec (tasks : List Doc) (q : TasksQuery)
    (hL : 1 ≤ jsParseIntOr 10 q.limit) (hP : 1 ≤ jsParseIntOr 1 q.page) :
    (getTasks tasks q).currentPage = jsParseIntOr 1 q.page
    ∧ (parseIntStr q.page = none → (getTasks tasks q).currentPage = 1)
    ∧ (parseIntStr q.limit = none →
        getTasks tasks q = getTasks tasks ⟨q.page, some "10"⟩)
    ∧ ((getTasks tasks q).tasks.length : Int) ≤ jsParseIntOr 10 q.limit
    ∧ (getTasks tasks q).totalPages
        = ((tasks.length : Int) + jsParseIntOr 10 q.limit - 1) / jsParseIntOr 10 q.limit := by
  refine ⟨rfl, ?_, ?_, ?_, ?_⟩
  · intro h
    simp [getTasks, jsParseIntOr, h]
  · intro h
    have h10 : jsParseIntOr 10 q.limit = 10 := by simp [jsParseIntOr, h]
    have h10b : jsParseIntOr 10 (some "10") = 10 := by decide
    simp [getTasks, h10, h10b]
  · have hlen := List.length_take (jsParseIntOr 10 q.limit).toNat
      ((List.insertionSort (docLe "deadline") tasks).drop
        (((jsParseIntOr 1 q.page - 1) * jsParseIntOr 10 q.limit)).toNat)
    simp only [getTasks]
    omega
  · simp only [getTasks]
    exact jsCeilDiv_eq_add_div _ _ (Int.natCast_nonneg _) hL

def tasksE : List Doc :=
  [[("deadline", Value.vStr "2020-01-02")], [("deadline", Value.vStr "2020-01-01")]]

/-- C6 witness: the amended pagination theorem at a two-task store with
both parameters absent, so both defaults apply. -/
theorem pagination_spec_witness :
    (1 ≤ jsParseIntOr 10 none ∧ 1 ≤ jsParseIntOr 1 none)
    ∧ ((getTasks tasksE ⟨none, none⟩).currentPage = jsParseIntOr 1 none
      ∧ (parseIntStr none = none → (getTasks tasksE ⟨none, none⟩).currentPage = 1)
      ∧ (parseIntStr none = none →
          getTasks tasksE ⟨none, none⟩ = getTasks tasksE ⟨none, some "10"⟩)
      ∧ ((getTasks tasksE ⟨none, none⟩).tasks.length : Int) ≤ jsParseIntOr 10 none
      ∧ (getTasks tasksE ⟨none, none⟩).totalPages
          = ((tasksE.length : Int) + jsParseIntOr 10 none - 1) / jsParseIntOr 10 none) :=
  ⟨⟨by decide, by decide⟩,
   pagination_spec tasksE ⟨none, none⟩ (by decide) (by decide)⟩

/-- C7: listing tasks by creator answers 400 when the creatorEmail
parameter is absent; with a non-empty creatorEmail it answers 200 with
exactly the tasks whose creatorEmail matches, sorted by descending
creation time; and the literal my-posted-tasks segment is dispatched to
this route rather than the :id route, which would have rejected it as an
invalid id. -/
theorem my_posted_tasks_spec (tasks : List Doc) (q : Option String) (e : String)
    (he : q = some e) (hne : e ≠ "") :
    (myPostedTasks tasks none).status = 400
    ∧ (myPostedTasks tasks q).status = 200
    ∧ ((myPostedTasks tasks q).tasks).Perm
        (tasks.filter (fun d => getKey d "creatorEmail" == some (.vStr e)))
    ∧ List.Sorted (docGe "createdAt") (myPostedTasks tasks q).tasks
    ∧ dispatchTasksSeg tasks "my-posted-tasks" q
        = SegResponse.posted (myPostedTasks tasks q)
    ∧ isValidObjectId "my-posted-tasks" = false
    ∧ (getTaskById tasks "my-posted-tasks").status = 400 := by
  subst he
  have hov : isValidObjectId "my-posted-tasks" = false := by decide
  refine ⟨rfl, ?_, ?_, ?_, ?_, hov, ?_⟩
  · simp [myPostedTasks, hne]
  · simpa [myPostedTasks, hne] using List.perm_insertionSort (docGe "createdAt")
      (tasks.filter (fun d => getKey d "creatorEmail" == some (.vStr e)))
  · simpa [myPostedTasks, hne] using List.sorted_insertionSort (docGe "createdAt")
      (tasks.filter (fun d => getKey d "creatorEmail" == some (.vStr e)))
  · simp [dispatchTasksSeg]
  · simp [getTaskById, hov]

/-- C7 witness: the creator listing over a one-task store for that
task's creator. -/
theorem my_posted_tasks_spec_witness :
    ((some "a@x.com" : Option String) = some "a@x.com" ∧ "a@x.com" ≠ "")
    ∧ ((myPostedTasks [taskB] none).status = 400
      ∧ (myPostedTasks [taskB] (some "a@x.com")).status = 200
      ∧ ((myPostedTasks [taskB] (some "a@x.com")).tasks).Perm
          ([taskB].filter (fun d => getKey d "creatorEmail" == some (.vStr "a@x.com")))
      ∧ List.Sorted (docGe "createdAt") (myPostedTasks [taskB] (some "a@x.com")).tasks
      ∧ dispatchTasksSeg [taskB] "my-posted-tasks" (some "a@x.com")
          = SegResponse.posted (myPostedTasks [taskB] (some "a@x.com"))
      ∧ isValidObjectId "my-posted-tasks" = false
      ∧ (getTaskById [taskB] "my-posted-tasks").status = 400) :=
  ⟨⟨rfl, by decide⟩,
   my_posted_tasks_spec [taskB] (some "a@x.com") "a@x.com" rfl (by decide)⟩
